import Mathlib

/-!
Verification of the password-generator bot core.

Shallow embedding of `src/main.py`: the pure password generation routine
`secure_password` (character pool assembly, one-per-class seeding, secure
fill and Fisher–Yates shuffle) and the per-user settings store driven by
inline-button payloads (`get_user_settings`, `button_callback` dispatch,
`build_status_text`, `build_main_keyboard`).

Randomness: every call to Python's `secrets.choice(seq)` is modelled as
`seq[r k % seq.length]` where `r : Nat → Nat` is an arbitrary stream of
random draws and `k` counts the calls made so far.  All theorems quantify
over `r`, so they hold for every behaviour of the secure random source.

Strings manipulated by the dispatch logic (callback payloads) are modelled
as `List Char`, which is the character sequence of the Python string.
-/

namespace PwBot

/-- `string.ascii_lowercase`: the 26 chars from code 97. -/
def ascii_lowercase : List Char := (List.range 26).map (fun n => Char.ofNat (97 + n))

/-- `string.ascii_uppercase`: the 26 chars from code 65. -/
def ascii_uppercase : List Char := (List.range 26).map (fun n => Char.ofNat (65 + n))

/-- `string.digits`: the 10 chars from code 48. -/
def digits : List Char := (List.range 10).map (fun n => Char.ofNat (48 + n))

/-- `string.punctuation`: ASCII codes 33–47, 58–64, 91–96, 123–126. -/
def punctuation : List Char :=
  ((List.range 128).filter (fun n =>
      (33 ≤ n && n ≤ 47) || (58 ≤ n && n ≤ 64) ||
      (91 ≤ n && n ≤ 96) || (123 ≤ n && n ≤ 126))).map Char.ofNat

/-- The denylist `('`', '´', '¨', ' ')` removed from `punctuation`
(codes 96, 180, 168, 32). -/
def symbolDeny : List Char :=
  [Char.ofNat 96, Char.ofNat 180, Char.ofNat 168, Char.ofNat 32]

/-- `"".join(ch for ch in punctuation if ch not in ('`', '´', '¨', ' '))`,
the symbol alphabet used both for the pool and for the mandatory pick. -/
def symbolChars : List Char := punctuation.filter (fun ch => !symbolDeny.contains ch)

/-- One call of `secrets.choice(seq)` given the random draw `x`:
the element of `seq` at index `x % seq.length`. -/
def secureChoice (x : Nat) (seq : List Char) : Char := seq.getD (x % seq.length) (Char.ofNat 0)

/-- `1` when the flag is set, else `0`. -/
def boolNat (b : Bool) : Nat := if b then 1 else 0

/-- The pool built by `secure_password`, concatenated in source order:
lower, upper, digits, symbols. -/
def buildPool (use_upper use_lower use_digits use_symbols : Bool) : List Char :=
  (if use_lower then ascii_lowercase else []) ++
  (if use_upper then ascii_uppercase else []) ++
  (if use_digits then digits else []) ++
  (if use_symbols then symbolChars else [])

/-- The mandatory one-per-class characters, appended in source order
lower, upper, digits, symbols; the counter argument of each `secureChoice`
is the number of draws made before it. -/
def seedChars (r : Nat → Nat) (use_upper use_lower use_digits use_symbols : Bool) :
    List Char :=
  (if use_lower then [secureChoice (r 0) ascii_lowercase] else []) ++
  (if use_upper then [secureChoice (r (boolNat use_lower)) ascii_uppercase] else []) ++
  (if use_digits then
    [secureChoice (r (boolNat use_lower + boolNat use_upper)) digits] else []) ++
  (if use_symbols then
    [secureChoice (r (boolNat use_lower + boolNat use_upper + boolNat use_digits))
      symbolChars] else [])

/-- The `while len(password_chars) < length` fill loop: draw `n` more
characters from the pool, consuming random draws `k, k+1, …`. -/
def fill (r : Nat → Nat) (k : Nat) (pool : List Char) : Nat → List Char
  | 0 => []
  | n + 1 => secureChoice (r k) pool :: fill r (k + 1) pool n

/-- `l[i], l[j] = l[j], l[i]`: simultaneous swap of positions `i` and `j`. -/
def listSwap (l : List Char) (i j : Nat) : List Char :=
  (l.set i (l.getD j (Char.ofNat 0))).set j (l.getD i (Char.ofNat 0))

/-- `for i in range(len(l) - 1, 0, -1): j = secure_choice(range(i + 1)); swap`.
The argument `i` is the current loop variable; `k` counts random draws. -/
def fyShuffle (r : Nat → Nat) (k : Nat) (l : List Char) : Nat → List Char
  | 0 => l
  | i + 1 => fyShuffle r (k + 1) (listSwap l (i + 1) (r k % (i + 2))) i

/-- Python slicing `l[:k]` for a possibly negative `k : Int`. -/
def pySlice (l : List Char) (k : Int) : List Char :=
  if k < 0 then l.take (l.length - k.natAbs) else l.take k.toNat

/-- `password_chars` just before the shuffle: the mandatory seeds followed by
the fill loop's draws, which run `length - len(seeds)` times (zero times when
that is not positive).  The fill's first draw is draw number `len(seeds)`. -/
def filledChars (r : Nat → Nat) (length : Int)
    (use_upper use_lower use_digits use_symbols : Bool) : List Char :=
  seedChars r use_upper use_lower use_digits use_symbols ++
    fill r (seedChars r use_upper use_lower use_digits use_symbols).length
      (buildPool use_upper use_lower use_digits use_symbols)
      ((length - ((seedChars r use_upper use_lower use_digits use_symbols).length : Int)).toNat)

/-- `secure_password(length, use_upper, use_lower, use_digits, use_symbols)`
from `src/main.py`.  Returns `Except.error` exactly where the Python raises
`ValueError`, and otherwise the shuffled, sliced character sequence.  The
shuffle starts at draw number `len(password_chars)` since one draw was made
per assembled character. -/
def secure_password (r : Nat → Nat) (length : Int)
    (use_upper use_lower use_digits use_symbols : Bool) : Except String (List Char) :=
  if (buildPool use_upper use_lower use_digits use_symbols).isEmpty then
    Except.error ("Character pool is empty. Enable at least one character set.")
  else
    Except.ok (pySlice
      (fyShuffle r (filledChars r length use_upper use_lower use_digits use_symbols).length
        (filledChars r length use_upper use_lower use_digits use_symbols)
        ((filledChars r length use_upper use_lower use_digits use_symbols).length - 1))
      length)

/-! ## Settings store and button dispatch -/

/-- One user's settings dictionary: the fields of `DEFAULTS` in
`src/main.py`.  `length` is a Python `int`, hence `Int` here (a crafted
`len:` payload can store any integer). -/
structure UserSettings where
  length : Int
  upper : Bool
  lower : Bool
  digits : Bool
  symbols : Bool
  last_password : Option (List Char)
deriving DecidableEq, Repr

/-- The `DEFAULTS` dictionary. -/
def DEFAULTS : UserSettings :=
  { length := 12, upper := true, lower := true, digits := true, symbols := false,
    last_password := none }

/-- The `USER_SETTINGS` dict, as an insertion-ordered association list. -/
def Store := List (Nat × UserSettings)

/-- Dictionary lookup `USER_SETTINGS[user_id]`. -/
def lookupUser : List (Nat × UserSettings) → Nat → Option UserSettings
  | [], _ => none
  | (k, v) :: rest, uid => if k = uid then some v else lookupUser rest uid

/-- Dictionary write `USER_SETTINGS[user_id] = s`: replace in place when the
key is present, append at the end otherwise (Python dicts keep insertion
order). -/
def setUser : List (Nat × UserSettings) → Nat → UserSettings → List (Nat × UserSettings)
  | [], uid, s => [(uid, s)]
  | (k, v) :: rest, uid, s =>
    if k = uid then (uid, s) :: rest else (k, v) :: setUser rest uid s

/-- `get_user_settings(user_id)`: the settings found, and the store after the
lazy default insertion (`DEFAULTS.copy()` for an unseen user). -/
def get_user_settings (store : List (Nat × UserSettings)) (uid : Nat) :
    UserSettings × List (Nat × UserSettings) :=
  match lookupUser store uid with
  | some s => (s, store)
  | none => (DEFAULTS, setUser store uid DEFAULTS)

/-- Python `int(string)` restricted to ASCII: optional surrounding ASCII
whitespace, an optional single sign, then digits with optional single
underscores between them.  This model is sound on success: whenever it
returns `some n`, CPython's `int()` accepts the same string and returns the
same `n`.  It is incomplete on failure: CPython additionally accepts Unicode
decimal digits and Unicode whitespace (e.g. U+0660 parses to 0), so a `none`
here does not imply that CPython raises.  Every consumer that must be
conservative (`goodEvent`) therefore treats a failed parse as outside its
scope rather than as a guaranteed no-op. -/
def isPySpace (c : Char) : Bool :=
  c = ' ' || c = '\t' || c = '\n' || c = '\r' || c = Char.ofNat 11 || c = Char.ofNat 12

/-- The value of an ASCII digit character, if it is one. -/
def digitVal? (c : Char) : Option Nat :=
  if '0' ≤ c ∧ c ≤ '9' then some (c.toNat - 48) else none

/-- Digits with single underscores between them, continuing accumulator `acc`. -/
def parseDigits : List Char → Nat → Option Nat
  | [], acc => some acc
  | '_' :: c :: rest, acc =>
    match digitVal? c with
    | some d => parseDigits rest (acc * 10 + d)
    | none => none
  | ['_'], _ => none
  | c :: rest, acc =>
    match digitVal? c with
    | some d => parseDigits rest (acc * 10 + d)
    | none => none

/-- A nonempty digit run (with internal underscores), leading digit first. -/
def pyDigits? : List Char → Option Nat
  | [] => none
  | c :: rest =>
    match digitVal? c with
    | some d => parseDigits rest d
    | none => none

/-- `int(s)` on a Python string modelled as a character list; `none` where
CPython raises `ValueError`. -/
def pyInt? (cs : List Char) : Option Int :=
  let cs1 := (((cs.dropWhile isPySpace).reverse.dropWhile isPySpace).reverse)
  match cs1 with
  | '+' :: rest => (pyDigits? rest).map (fun n => (n : Int))
  | '-' :: rest => (pyDigits? rest).map (fun n => -(n : Int))
  | _ => (pyDigits? cs1).map (fun n => (n : Int))

/-- Character-by-character comparison of a tag against the front of a
payload; the tag is the first argument. -/
def tagMatches : List Char → List Char → Bool
  | [], _ => true
  | _ :: _, [] => false
  | t :: ts, c :: cs => (c = t) && tagMatches ts cs

/-- `data.startswith(tag)`: the first argument is the payload, the second the
tag to test for. -/
def startsWithL (payload tag : List Char) : Bool := tagMatches tag payload

/-- The `toggle:` branch body: flip the named flag when the key is one of the
four recognised names, otherwise answer "Unknown toggle" and change nothing. -/
def toggleKey (s : UserSettings) (key : List Char) : UserSettings :=
  if key = ['u', 'p', 'p', 'e', 'r'] then { s with upper := !s.upper }
  else if key = ['l', 'o', 'w', 'e', 'r'] then { s with lower := !s.lower }
  else if key = ['d', 'i', 'g', 'i', 't', 's'] then { s with digits := !s.digits }
  else if key = ['s', 'y', 'm', 'b', 'o', 'l', 's'] then { s with symbols := !s.symbols }
  else s

/-- The shared body of the `generate` and `regenerate` actions: run
`secure_password` on the current settings; on success store the password as
`last_password`, on a raised error show an alert and change nothing. -/
def doGenerate (r : Nat → Nat) (s : UserSettings) : UserSettings :=
  match secure_password r s.length s.upper s.lower s.digits s.symbols with
  | Except.ok pwd => { s with last_password := some pwd }
  | Except.error _ => s

/-- The `action:` branch body of `button_callback`: `generate` and
`regenerate` both run the generator on the current settings; `clear` drops
the stored password; `help` and any unrecognised action change nothing. -/
def actionDispatch (r : Nat → Nat) (s : UserSettings) (action : List Char) : UserSettings :=
  if action = ['g', 'e', 'n', 'e', 'r', 'a', 't', 'e'] then doGenerate r s
  else if action = ['r', 'e', 'g', 'e', 'n', 'e', 'r', 'a', 't', 'e'] then doGenerate r s
  else if action = ['c', 'l', 'e', 'a', 'r'] then { s with last_password := none }
  else s

/-- The payload dispatch of `button_callback` acting on one user's settings:
`data.startswith("len:")` sets the parsed length (no change when `int()`
raises), `data.startswith("toggle:")` flips a flag, `data.startswith("action:")`
dispatches the action, and any unknown payload changes nothing.
`data.split(":", 1)[1]` after a successful `startswith` test is exactly the
payload with the tag's characters dropped, since the tag holds the first colon. -/
def applyButton (r : Nat → Nat) (s : UserSettings) (payload : List Char) : UserSettings :=
  if startsWithL payload ['l', 'e', 'n', ':'] then
    match pyInt? (payload.drop 4) with
    | some n => { s with length := n }
    | none => s
  else if startsWithL payload ['t', 'o', 'g', 'g', 'l', 'e', ':'] then
    toggleKey s (payload.drop 7)
  else if startsWithL payload ['a', 'c', 't', 'i', 'o', 'n', ':'] then
    actionDispatch r s (payload.drop 7)
  else s

/-- An inbound event handled by the bot: the `/start` command, or a button
press carrying a callback payload. -/
inductive Event where
  | start : Event
  | button : List Char → Event
deriving DecidableEq

/-- One handled event for one user: both the `/start` handler and
`button_callback` begin with `get_user_settings` (lazy default insertion) and
then the button branch mutates that user's entry in place. -/
def step (r : Nat → Nat) (store : List (Nat × UserSettings)) (uid : Nat) (ev : Event) :
    List (Nat × UserSettings) :=
  match ev with
  | Event.start => (get_user_settings store uid).2
  | Event.button payload =>
    setUser (get_user_settings store uid).2 uid
      (applyButton r (get_user_settings store uid).1 payload)

/-- A handled event together with the behaviour of the secure random source
during its processing. -/
structure TimedEvent where
  rand : Nat → Nat
  uid : Nat
  ev : Event

/-- Run a sequence of handled events against the store. -/
def runEvents : List (Nat × UserSettings) → List TimedEvent → List (Nat × UserSettings)
  | store, [] => store
  | store, e :: rest => runEvents (step e.rand store e.uid e.ev) rest

/-- The spec's Settings-Store invariant: every stored `length` is positive. -/
def lengthInv (store : List (Nat × UserSettings)) : Prop :=
  ∀ p ∈ store, 0 < p.2.length

instance (store : List (Nat × UserSettings)) : Decidable (lengthInv store) :=
  inferInstanceAs (Decidable (∀ p ∈ store, 0 < p.2.length))

/-- An event whose `len:` payload parses to a positive value; every event
that is not a length selection is unconstrained.  A length payload whose
`pyInt?` parse fails is NOT good: the model of `int()` is ASCII-only while
CPython also accepts Unicode digit forms, so unparseable payloads are
conservatively kept outside the invariant's scope instead of being assumed
to be no-ops.  Every token the offered keyboard emits (`len:8`, `len:12`,
`len:16`, `len:24`) parses to a positive value and is good. -/
def goodEvent : Event → Bool
  | Event.start => true
  | Event.button payload =>
    if startsWithL payload ['l', 'e', 'n', ':'] then
      match pyInt? (payload.drop 4) with
      | some n => decide (0 < n)
      | none => false
    else true

/-! ## Rendering -/

/-- `'Yes' if flag else 'No'`. -/
def yesNo (b : Bool) : String := if b then "Yes" else "No"

/-- `build_status_text(settings)`. -/
def build_status_text (s : UserSettings) : String :=
  "🔐 *Password Generator — Settings*\n\n" ++
  "*Length:* " ++ toString s.length ++ "\n" ++
  "*Upper:* " ++ yesNo s.upper ++ "\n" ++
  "*Lower:* " ++ yesNo s.lower ++ "\n" ++
  "*Digits:* " ++ yesNo s.digits ++ "\n" ++
  "*Symbols:* " ++ yesNo s.symbols ++ "\n\n" ++
  "Use the buttons below to modify settings or generate a password."

/-- An `InlineKeyboardButton`: label text plus either a callback payload or a
`switch_inline_query` value. -/
structure KButton where
  text : String
  callback_data : Option String
  switch_inline_query : Option String
deriving DecidableEq, Repr

/-- A button carrying a callback payload. -/
def kbtn (t d : String) : KButton := ⟨t, some d, none⟩

/-- The checked / unchecked marker used by the keyboard labels. -/
def mark (b : Bool) : String := if b then "✅" else "⬜️"

/-- One length-selection button. -/
def lengthButton (s : UserSettings) (l : Int) : KButton :=
  kbtn (mark (s.length = l) ++ " " ++ toString l) ("len:" ++ toString l)

/-- `build_main_keyboard(settings)`: the five rows of inline buttons. -/
def build_main_keyboard (s : UserSettings) : List (List KButton) :=
  [([8, 12, 16, 24] : List Int).map (lengthButton s),
   [kbtn (mark s.upper ++ " Upper") ("toggle:upper"),
    kbtn (mark s.lower ++ " Lower") ("toggle:lower")],
   [kbtn (mark s.digits ++ " Digits") ("toggle:digits"),
    kbtn (mark s.symbols ++ " Symbols") ("toggle:symbols")],
   [kbtn ("🔁 Generate") ("action:generate"),
    kbtn ("♻️ Regenerate") ("action:regenerate"),
    kbtn ("🗑️ Clear") ("action:clear")],
   [kbtn ("ℹ️ Help") ("action:help"), ⟨"🔗 Share", none, some ""⟩]]

/-! ## Helper lemmas: list access, swap and shuffle -/

theorem getD_mem (l : List Char) (i : Nat) (d : Char) (h : i < l.length) :
    l.getD i d ∈ l := by
  rw [List.getD_eq_getElem?_getD, List.getElem?_eq_getElem h]
  exact List.getElem_mem h

theorem getD_eq_getElem (l : List Char) (i : Nat) (d : Char) (h : i < l.length) :
    l.getD i d = l[i] := by
  rw [List.getD_eq_getElem?_getD, List.getElem?_eq_getElem h, Option.getD_some]

theorem secureChoice_mem (x : Nat) (seq : List Char) (h : seq ≠ []) :
    secureChoice x seq ∈ seq :=
  getD_mem _ _ _ (Nat.mod_lt _ (List.length_pos.mpr h))

theorem fill_length (r : Nat → Nat) (pool : List Char) :
    ∀ (n k : Nat), (fill r k pool n).length = n := by
  intro n
  induction n with
  | zero => intro k; rfl
  | succ n ih => intro k; simp [fill, ih]

theorem fill_subset (r : Nat → Nat) (pool : List Char) (hp : pool ≠ []) :
    ∀ (n k : Nat), ∀ c ∈ fill r k pool n, c ∈ pool := by
  intro n
  induction n with
  | zero => intro k c hc; cases hc
  | succ n ih =>
    intro k c hc
    rcases hc with _ | ⟨_, hc⟩
    · exact secureChoice_mem _ _ hp
    · exact ih (k + 1) c hc

theorem listSwap_length (l : List Char) (i j : Nat) :
    (listSwap l i j).length = l.length := by
  simp [listSwap]

theorem mem_of_mem_listSwap {l : List Char} {i j : Nat} {c : Char}
    (hi : i < l.length) (hj : j < l.length) (hc : c ∈ listSwap l i j) : c ∈ l := by
  rcases List.mem_or_eq_of_mem_set hc with hc1 | rfl
  · rcases List.mem_or_eq_of_mem_set hc1 with hc2 | rfl
    · exact hc2
    · exact getD_mem _ _ _ hj
  · exact getD_mem _ _ _ hi

theorem mem_listSwap_of_mem {l : List Char} {i j : Nat} {c : Char}
    (hi : i < l.length) (hj : j < l.length) (hc : c ∈ l) : c ∈ listSwap l i j := by
  rw [List.mem_iff_getElem] at hc
  obtain ⟨p, hp, hpc⟩ := hc
  unfold listSwap
  by_cases hpi : p = i
  · -- the old l[i] reappears at position j
    refine List.mem_iff_getElem?.mpr ⟨j, ?_⟩
    subst hpi
    rw [List.getElem?_set_self (by simpa using hj), getD_eq_getElem _ _ _ hi]
    exact congrArg some hpc
  · by_cases hpj : p = j
    · -- the old l[j] reappears at position i
      refine List.mem_iff_getElem?.mpr ⟨i, ?_⟩
      subst hpj
      rw [List.getElem?_set_ne (by omega), List.getElem?_set_self hi,
        getD_eq_getElem _ _ _ hj]
      exact congrArg some hpc
    · refine List.mem_iff_getElem?.mpr ⟨p, ?_⟩
      rw [List.getElem?_set_ne (by omega), List.getElem?_set_ne (by omega),
        List.getElem?_eq_getElem hp]
      exact congrArg some hpc

theorem fyShuffle_length (r : Nat → Nat) :
    ∀ (i k : Nat) (l : List Char), (fyShuffle r k l i).length = l.length := by
  intro i
  induction i with
  | zero => intro k l; rfl
  | succ i ih => intro k l; rw [fyShuffle, ih, listSwap_length]

theorem fyShuffle_mem (r : Nat → Nat) :
    ∀ (i k : Nat) (l : List Char), i < l.length →
      ∀ c, c ∈ fyShuffle r k l i ↔ c ∈ l := by
  intro i
  induction i with
  | zero => intro k l _ c; rfl
  | succ i ih =>
    intro k l hi c
    rw [fyShuffle]
    have hj : r k % (i + 2) < l.length :=
      Nat.lt_of_lt_of_le (Nat.mod_lt _ (by omega)) (by omega)
    have hswlen : (listSwap l (i + 1) (r k % (i + 2))).length = l.length :=
      listSwap_length _ _ _
    rw [ih (k + 1) _ (by omega)]
    exact ⟨mem_of_mem_listSwap hi hj, mem_listSwap_of_mem hi hj⟩

/-! ## Generator lemmas -/

/-- The number of enabled character classes. -/
def numEnabled (uu ul ud us : Bool) : Nat :=
  boolNat ul + boolNat uu + boolNat ud + boolNat us

theorem seedChars_length (r : Nat → Nat) (uu ul ud us : Bool) :
    (seedChars r uu ul ud us).length = numEnabled uu ul ud us := by
  cases ul <;> cases uu <;> cases ud <;> cases us <;>
    simp [seedChars, numEnabled, boolNat]

theorem numEnabled_pos {uu ul ud us : Bool} (h : (uu || ul || ud || us) = true) :
    1 ≤ numEnabled uu ul ud us := by
  cases uu <;> cases ul <;> cases ud <;> cases us <;> simp_all [numEnabled, boolNat]

theorem pool_ne_nil {uu ul ud us : Bool} (h : (uu || ul || ud || us) = true) :
    buildPool uu ul ud us ≠ [] := by
  cases uu <;> cases ul <;> cases ud <;> cases us <;> first | decide | simp_all

theorem lower_subset_pool {uu ul ud us : Bool} (h : ul = true) :
    ∀ c ∈ ascii_lowercase, c ∈ buildPool uu ul ud us := by
  intro c hc
  simp only [buildPool, List.mem_append, h, if_true]
  tauto

theorem upper_subset_pool {uu ul ud us : Bool} (h : uu = true) :
    ∀ c ∈ ascii_uppercase, c ∈ buildPool uu ul ud us := by
  intro c hc
  simp only [buildPool, List.mem_append, h, if_true]
  tauto

theorem digits_subset_pool {uu ul ud us : Bool} (h : ud = true) :
    ∀ c ∈ digits, c ∈ buildPool uu ul ud us := by
  intro c hc
  simp only [buildPool, List.mem_append, h, if_true]
  tauto

theorem symbols_subset_pool {uu ul ud us : Bool} (h : us = true) :
    ∀ c ∈ symbolChars, c ∈ buildPool uu ul ud us := by
  intro c hc
  simp only [buildPool, List.mem_append, h, if_true]
  tauto

theorem seed_subset_pool (r : Nat → Nat) (uu ul ud us : Bool) :
    ∀ c ∈ seedChars r uu ul ud us, c ∈ buildPool uu ul ud us := by
  intro c hc
  simp only [seedChars, List.mem_append] at hc
  rcases hc with ((h1 | h2) | h3) | h4
  · cases ul with
    | false => simp at h1
    | true =>
      simp at h1
      exact lower_subset_pool rfl _ (h1 ▸ secureChoice_mem _ _ (by decide))
  · cases uu with
    | false => simp at h2
    | true =>
      simp at h2
      exact upper_subset_pool rfl _ (h2 ▸ secureChoice_mem _ _ (by decide))
  · cases ud with
    | false => simp at h3
    | true =>
      simp at h3
      exact digits_subset_pool rfl _ (h3 ▸ secureChoice_mem _ _ (by decide))
  · cases us with
    | false => simp at h4
    | true =>
      simp at h4
      exact symbols_subset_pool rfl _ (h4 ▸ secureChoice_mem _ _ (by decide))

theorem seed_cover_lower (r : Nat → Nat) {uu ul ud us : Bool} (h : ul = true) :
    ∃ c ∈ seedChars r uu ul ud us, c ∈ ascii_lowercase := by
  refine ⟨secureChoice (r 0) ascii_lowercase, ?_, secureChoice_mem _ _ (by decide)⟩
  simp only [seedChars, List.mem_append, h, if_true]
  simp

theorem seed_cover_upper (r : Nat → Nat) {uu ul ud us : Bool} (h : uu = true) :
    ∃ c ∈ seedChars r uu ul ud us, c ∈ ascii_uppercase := by
  refine ⟨secureChoice (r (boolNat ul)) ascii_uppercase, ?_,
    secureChoice_mem _ _ (by decide)⟩
  simp only [seedChars, List.mem_append, h, if_true]
  simp

theorem seed_cover_digits (r : Nat → Nat) {uu ul ud us : Bool} (h : ud = true) :
    ∃ c ∈ seedChars r uu ul ud us, c ∈ digits := by
  refine ⟨secureChoice (r (boolNat ul + boolNat uu)) digits, ?_,
    secureChoice_mem _ _ (by decide)⟩
  simp only [seedChars, List.mem_append, h, if_true]
  simp

theorem seed_cover_symbols (r : Nat → Nat) {uu ul ud us : Bool} (h : us = true) :
    ∃ c ∈ seedChars r uu ul ud us, c ∈ symbolChars := by
  refine ⟨secureChoice (r (boolNat ul + boolNat uu + boolNat ud)) symbolChars, ?_,
    secureChoice_mem _ _ (by decide)⟩
  simp only [seedChars, List.mem_append, h, if_true]
  simp

theorem filledChars_length (r : Nat → Nat) (len : Int) (uu ul ud us : Bool) :
    (filledChars r len uu ul ud us).length =
      (seedChars r uu ul ud us).length +
        (len - ((seedChars r uu ul ud us).length : Int)).toNat := by
  rw [filledChars, List.length_append, fill_length]

theorem mem_filledChars {r : Nat → Nat} {len : Int} {uu ul ud us : Bool} {c : Char}
    (hc : c ∈ filledChars r len uu ul ud us) (hpool : buildPool uu ul ud us ≠ []) :
    c ∈ buildPool uu ul ud us := by
  rw [filledChars, List.mem_append] at hc
  rcases hc with hc | hc
  · exact seed_subset_pool r uu ul ud us c hc
  · exact fill_subset r _ hpool _ _ c hc

/-- With at least one class enabled and `length ≥ 1`, generation succeeds,
the result has exactly `length` characters, and every character is drawn
from the enabled pool. -/
theorem secure_password_ok (r : Nat → Nat) (len : Int) (uu ul ud us : Bool)
    (hcls : (uu || ul || ud || us) = true) (hlen : 1 ≤ len) :
    ∃ pwd, secure_password r len uu ul ud us = Except.ok pwd ∧
      (pwd.length : Int) = len ∧ ∀ c ∈ pwd, c ∈ buildPool uu ul ud us := by
  have hpool : buildPool uu ul ud us ≠ [] := pool_ne_nil hcls
  have hseed : (seedChars r uu ul ud us).length = numEnabled uu ul ud us :=
    seedChars_length r uu ul ud us
  have hone : 1 ≤ numEnabled uu ul ud us := numEnabled_pos hcls
  unfold secure_password
  rw [if_neg (by simp [hpool])]
  have hFlen := filledChars_length r len uu ul ud us
  set F := filledChars r len uu ul ud us with hF
  have hFpos : 1 ≤ F.length := by omega
  have hshlen : (fyShuffle r F.length F (F.length - 1)).length = F.length :=
    fyShuffle_length r _ _ _
  refine ⟨_, rfl, ?_, ?_⟩
  · -- exact length
    rw [pySlice, if_neg (by omega), List.length_take]
    have : len.toNat ≤ F.length := by omega
    omega
  · intro c hc
    rw [pySlice, if_neg (by omega)] at hc
    have hc2 : c ∈ fyShuffle r F.length F (F.length - 1) :=
      List.mem_of_mem_take hc
    have hc3 : c ∈ F := (fyShuffle_mem r _ _ _ (by omega) c).mp hc2
    exact mem_filledChars (hF ▸ hc3) hpool

/-- With at least one class enabled and `length` at least the number of
enabled classes, generation additionally covers every enabled class. -/
theorem secure_password_cover (r : Nat → Nat) (len : Int) (uu ul ud us : Bool)
    (hcls : (uu || ul || ud || us) = true)
    (hn : (numEnabled uu ul ud us : Int) ≤ len) :
    ∃ pwd, secure_password r len uu ul ud us = Except.ok pwd ∧
      (pwd.length : Int) = len ∧
      (∀ c ∈ pwd, c ∈ buildPool uu ul ud us) ∧
      (ul = true → ∃ c ∈ pwd, c ∈ ascii_lowercase) ∧
      (uu = true → ∃ c ∈ pwd, c ∈ ascii_uppercase) ∧
      (ud = true → ∃ c ∈ pwd, c ∈ digits) ∧
      (us = true → ∃ c ∈ pwd, c ∈ symbolChars) := by
  have hpool : buildPool uu ul ud us ≠ [] := pool_ne_nil hcls
  have hseed : (seedChars r uu ul ud us).length = numEnabled uu ul ud us :=
    seedChars_length r uu ul ud us
  have hone : 1 ≤ numEnabled uu ul ud us := numEnabled_pos hcls
  unfold secure_password
  rw [if_neg (by simp [hpool])]
  have hFlen := filledChars_length r len uu ul ud us
  set F := filledChars r len uu ul ud us with hF
  have hFtot : F.length = len.toNat := by omega
  have hFpos : 1 ≤ F.length := by omega
  have hshlen : (fyShuffle r F.length F (F.length - 1)).length = F.length :=
    fyShuffle_length r _ _ _
  have hslice : pySlice (fyShuffle r F.length F (F.length - 1)) len =
      fyShuffle r F.length F (F.length - 1) := by
    rw [pySlice, if_neg (by omega)]
    have h2 : len.toNat = (fyShuffle r F.length F (F.length - 1)).length := by omega
    rw [h2, List.take_length]
  have hmemS : ∀ c ∈ seedChars r uu ul ud us,
      c ∈ fyShuffle r F.length F (F.length - 1) := by
    intro c hc
    refine (fyShuffle_mem r _ _ _ (by omega) c).mpr ?_
    rw [hF, filledChars]
    exact List.mem_append_left _ hc
  refine ⟨_, rfl, ?_, ?_, ?_, ?_, ?_, ?_⟩
  · rw [hslice]; omega
  · intro c hc
    rw [hslice] at hc
    have hc3 : c ∈ F := (fyShuffle_mem r _ _ _ (by omega) c).mp hc
    exact mem_filledChars (hF ▸ hc3) hpool
  · intro h
    obtain ⟨c, hcS, hcl⟩ := @seed_cover_lower r uu ul ud us h
    rw [hslice]
    exact ⟨c, hmemS c hcS, hcl⟩
  · intro h
    obtain ⟨c, hcS, hcl⟩ := @seed_cover_upper r uu ul ud us h
    rw [hslice]
    exact ⟨c, hmemS c hcS, hcl⟩
  · intro h
    obtain ⟨c, hcS, hcl⟩ := @seed_cover_digits r uu ul ud us h
    rw [hslice]
    exact ⟨c, hmemS c hcS, hcl⟩
  · intro h
    obtain ⟨c, hcS, hcl⟩ := @seed_cover_symbols r uu ul ud us h
    rw [hslice]
    exact ⟨c, hmemS c hcS, hcl⟩

/-- With no class enabled, `secure_password` raises the empty-pool
`ValueError`. -/
theorem secure_password_err (r : Nat → Nat) (len : Int) :
    secure_password r len false false false false =
      Except.error "Character pool is empty. Enable at least one character set." := rfl

/-! ## Store lemmas -/

theorem lookup_mem :
    ∀ {store : List (Nat × UserSettings)} {uid : Nat} {s : UserSettings},
      lookupUser store uid = some s → (uid, s) ∈ store := by
  intro store
  induction store with
  | nil => intro uid s h; cases h
  | cons p rest ih =>
    intro uid s h
    rw [lookupUser] at h
    by_cases hk : p.1 = uid
    · rw [if_pos hk] at h
      cases h
      subst hk
      exact List.mem_cons_self _ _
    · rw [if_neg hk] at h
      exact List.mem_cons_of_mem _ (ih h)

theorem lookup_setUser_self :
    ∀ (store : List (Nat × UserSettings)) (uid : Nat) (s : UserSettings),
      lookupUser (setUser store uid s) uid = some s := by
  intro store
  induction store with
  | nil => intro uid s; simp [setUser, lookupUser]
  | cons p rest ih =>
    intro uid s
    rw [setUser]
    by_cases hk : p.1 = uid
    · rw [if_pos hk, lookupUser, if_pos rfl]
    · rw [if_neg hk, lookupUser, if_neg hk]
      exact ih uid s

theorem lookup_setUser_ne :
    ∀ (store : List (Nat × UserSettings)) (uid uid' : Nat) (s : UserSettings),
      uid ≠ uid' → lookupUser (setUser store uid s) uid' = lookupUser store uid' := by
  intro store
  induction store with
  | nil =>
    intro uid uid' s h
    simp [setUser, lookupUser, h]
  | cons p rest ih =>
    intro uid uid' s h
    rw [setUser]
    by_cases hk : p.1 = uid
    · rw [if_pos hk, lookupUser, if_neg h, lookupUser, if_neg (hk ▸ h)]
    · rw [if_neg hk, lookupUser, lookupUser]
      by_cases hk' : p.1 = uid'
      · rw [if_pos hk', if_pos hk']
      · rw [if_neg hk', if_neg hk']
        exact ih uid uid' s h

theorem setUser_same :
    ∀ {store : List (Nat × UserSettings)} {uid : Nat} {s : UserSettings},
      lookupUser store uid = some s → setUser store uid s = store := by
  intro store
  induction store with
  | nil => intro uid s h; cases h
  | cons p rest ih =>
    intro uid s h
    rw [lookupUser] at h
    rw [setUser]
    by_cases hk : p.1 = uid
    · rw [if_pos hk] at h
      cases h
      rw [if_pos hk, ← hk]
    · rw [if_neg hk] at h
      rw [if_neg hk, ih h]

theorem setUser_setUser :
    ∀ (store : List (Nat × UserSettings)) (uid : Nat) (a b : UserSettings),
      setUser (setUser store uid a) uid b = setUser store uid b := by
  intro store
  induction store with
  | nil => intro uid a b; simp [setUser]
  | cons p rest ih =>
    intro uid a b
    rw [setUser]
    by_cases hk : p.1 = uid
    · rw [if_pos hk, setUser, if_pos rfl, setUser, if_pos hk]
    · rw [if_neg hk, setUser, if_neg hk, setUser, if_neg hk, ih]

theorem mem_setUser :
    ∀ {store : List (Nat × UserSettings)} {uid : Nat} {s : UserSettings} {p},
      p ∈ setUser store uid s → p ∈ store ∨ p = (uid, s) := by
  intro store
  induction store with
  | nil =>
    intro uid s p h
    rw [setUser] at h
    rcases h with _ | ⟨_, h⟩
    · right; rfl
    · cases h
  | cons q rest ih =>
    intro uid s p h
    rw [setUser] at h
    by_cases hk : q.1 = uid
    · rw [if_pos hk] at h
      rcases h with _ | ⟨_, h⟩
      · right; rfl
      · left; exact List.mem_cons_of_mem _ h
    · rw [if_neg hk] at h
      rcases h with _ | ⟨_, h⟩
      · left; exact List.mem_cons_self _ _
      · rcases ih h with h2 | h2
        · left; exact List.mem_cons_of_mem _ h2
        · right; exact h2

/-! ## Transition lemmas -/

theorem toggleKey_length (s : UserSettings) (key : List Char) :
    (toggleKey s key).length = s.length := by
  rw [toggleKey]
  split_ifs <;> rfl

theorem toggleKey_frame (s : UserSettings) (key : List Char) :
    (toggleKey s key).length = s.length ∧
      (toggleKey s key).last_password = s.last_password := by
  rw [toggleKey]
  split_ifs <;> exact ⟨rfl, rfl⟩

theorem doGenerate_length (r : Nat → Nat) (s : UserSettings) :
    (doGenerate r s).length = s.length := by
  rw [doGenerate]
  cases secure_password r s.length s.upper s.lower s.digits s.symbols <;> rfl

theorem actionDispatch_length (r : Nat → Nat) (s : UserSettings) (action : List Char) :
    (actionDispatch r s action).length = s.length := by
  rw [actionDispatch]
  split_ifs <;> simp [doGenerate_length]

theorem applyButton_length (r : Nat → Nat) (s : UserSettings) (payload : List Char)
    (hgood : goodEvent (Event.button payload) = true) (hs : 0 < s.length) :
    0 < (applyButton r s payload).length := by
  rw [applyButton]
  rw [goodEvent] at hgood
  by_cases hlen : startsWithL payload ['l', 'e', 'n', ':'] = true
  · rw [if_pos hlen]
    rw [if_pos hlen] at hgood
    cases hn : pyInt? (payload.drop 4) with
    | some n =>
      rw [hn] at hgood
      simp only [decide_eq_true_eq] at hgood
      simpa using hgood
    | none => simpa using hs
  · rw [if_neg hlen]
    split_ifs with h1 h2
    · rw [toggleKey_length]; exact hs
    · rw [actionDispatch_length]; exact hs
    · exact hs

theorem step_lengthInv (r : Nat → Nat) (store : List (Nat × UserSettings))
    (uid : Nat) (ev : Event) (hinv : lengthInv store) (hgood : goodEvent ev = true) :
    lengthInv (step r store uid ev) := by
  have hs0 : 0 < ((get_user_settings store uid).1).length := by
    rw [get_user_settings]
    cases hl : lookupUser store uid with
    | some s => exact hinv _ (lookup_mem hl)
    | none => exact (by decide : (0 : Int) < 12)
  have hst : lengthInv (get_user_settings store uid).2 := by
    rw [get_user_settings]
    cases hl : lookupUser store uid with
    | some s => exact hinv
    | none =>
      intro p hp
      rcases mem_setUser hp with h | h
      · exact hinv _ h
      · rw [h]
        exact (by decide : (0 : Int) < 12)
  cases ev with
  | start => exact hst
  | button payload =>
    rw [step]
    intro p hp
    rcases mem_setUser hp with h | h
    · exact hst _ h
    · rw [h]
      exact applyButton_length r _ payload hgood hs0

theorem runEvents_lengthInv :
    ∀ (evs : List TimedEvent) (store : List (Nat × UserSettings)),
      lengthInv store → (∀ e ∈ evs, goodEvent e.ev = true) →
      lengthInv (runEvents store evs) := by
  intro evs
  induction evs with
  | nil => intro store h _; exact h
  | cons e rest ih =>
    intro store h hgood
    rw [runEvents]
    exact ih _ (step_lengthInv _ _ _ _ h (hgood e (List.mem_cons_self _ _)))
      (fun e' he' => hgood e' (List.mem_cons_of_mem _ he'))

theorem gus_found {store : List (Nat × UserSettings)} {uid : Nat} {s : UserSettings}
    (h : lookupUser store uid = some s) :
    get_user_settings store uid = (s, store) := by
  rw [get_user_settings, h]

theorem gus_fresh {store : List (Nat × UserSettings)} {uid : Nat}
    (h : lookupUser store uid = none) :
    get_user_settings store uid = (DEFAULTS, setUser store uid DEFAULTS) := by
  rw [get_user_settings, h]

theorem step_button_found {r : Nat → Nat} {store : List (Nat × UserSettings)}
    {uid : Nat} {s : UserSettings} {payload : List Char}
    (h : lookupUser store uid = some s) :
    step r store uid (Event.button payload) =
      setUser store uid (applyButton r s payload) := by
  rw [step, gus_found h]

theorem step_button_fresh {r : Nat → Nat} {store : List (Nat × UserSettings)}
    {uid : Nat} {payload : List Char}
    (h : lookupUser store uid = none) :
    step r store uid (Event.button payload) =
      setUser (setUser store uid DEFAULTS) uid (applyButton r DEFAULTS payload) := by
  rw [step, gus_fresh h]

theorem step_start_found {r : Nat → Nat} {store : List (Nat × UserSettings)}
    {uid : Nat} {s : UserSettings} (h : lookupUser store uid = some s) :
    step r store uid Event.start = store := by
  rw [step, gus_found h]

theorem step_start_fresh {r : Nat → Nat} {store : List (Nat × UserSettings)}
    {uid : Nat} (h : lookupUser store uid = none) :
    step r store uid Event.start = setUser store uid DEFAULTS := by
  rw [step, gus_fresh h]

/-! ## Concrete payloads and random streams used in witnesses -/

/-- The callback payload of the Generate button. -/
def genPayload : List Char :=
  ['a', 'c', 't', 'i', 'o', 'n', ':', 'g', 'e', 'n', 'e', 'r', 'a', 't', 'e']

/-- The callback payload of the Regenerate button. -/
def regenPayload : List Char :=
  ['a', 'c', 't', 'i', 'o', 'n', ':', 'r', 'e', 'g', 'e', 'n', 'e', 'r', 'a', 't', 'e']

/-- The callback payload of the Clear button. -/
def clearPayload : List Char :=
  ['a', 'c', 't', 'i', 'o', 'n', ':', 'c', 'l', 'e', 'a', 'r']

/-- A toggle payload for the given class name. -/
def togglePayload (key : List Char) : List Char :=
  't' :: 'o' :: 'g' :: 'g' :: 'l' :: 'e' :: ':' :: key

/-- A degenerate behaviour of the random source. -/
def constRand : Nat → Nat := fun _ => 0

/-- Another concrete behaviour of the random source. -/
def mixRand : Nat → Nat := fun k => k * 7 + 3

/-- A concrete session driven only by payloads the inline keyboard offers
(plus one unknown payload), used as a witness input. -/
def demoEvents : List TimedEvent :=
  [⟨constRand, 1, Event.start⟩,
   ⟨mixRand, 1, Event.button ['l', 'e', 'n', ':', '8']⟩,
   ⟨mixRand, 1, Event.button (togglePayload ['s', 'y', 'm', 'b', 'o', 'l', 's'])⟩,
   ⟨mixRand, 1, Event.button genPayload⟩,
   ⟨constRand, 2, Event.button clearPayload⟩,
   ⟨constRand, 3, Event.button ['x', 'y', 'z']⟩]

/-! ## Claims -/

/-- Claim C1: for every call to the password generator with `length ≥ 1` and
at least one character class enabled, `secure_password` returns a string of
exactly `length` characters and does not fail; in particular when `length`
is smaller than the number of enabled classes the mandatory-character set is
truncated to `length` rather than raising an error. -/
theorem C1_generate_ok_length (r : Nat → Nat) (len : Int) (uu ul ud us : Bool)
    (hlen : 1 ≤ len) (hcls : (uu || ul || ud || us) = true) :
    ∃ pwd, secure_password r len uu ul ud us = Except.ok pwd ∧
      (pwd.length : Int) = len := by
  obtain ⟨pwd, hok, hl, _⟩ := secure_password_ok r len uu ul ud us hcls hlen
  exact ⟨pwd, hok, hl⟩

/-- Witness for C1 at a concrete input: `length = 2` with all four classes
enabled, which exercises the truncation branch (`2 < 4`). -/
theorem C1_generate_ok_length_witness :
    (1 : Int) ≤ 2 ∧ (true || true || true || true) = true ∧
      ∃ pwd, secure_password constRand 2 true true true true = Except.ok pwd ∧
        (pwd.length : Int) = 2 :=
  ⟨by decide, by decide,
    C1_generate_ok_length constRand 2 true true true true (by decide) (by decide)⟩

/-- Claim C2: with at least one class enabled and `length` at least the
number of enabled classes, every enabled class contributes at least one
character to the returned password, and the mandatory one-per-class
characters are seeded first in the fixed class order lower, upper, digits,
symbols (the shuffle preserves their presence). -/
theorem C2_coverage_seed_order (r : Nat → Nat) (len : Int) (uu ul ud us : Bool)
    (hcls : (uu || ul || ud || us) = true)
    (hn : (numEnabled uu ul ud us : Int) ≤ len) :
    (∃ la ua da sa : List Char,
      seedChars r uu ul ud us = la ++ ua ++ da ++ sa ∧
      (if ul then ∃ x ∈ ascii_lowercase, la = [x] else la = []) ∧
      (if uu then ∃ x ∈ ascii_uppercase, ua = [x] else ua = []) ∧
      (if ud then ∃ x ∈ digits, da = [x] else da = []) ∧
      (if us then ∃ x ∈ symbolChars, sa = [x] else sa = [])) ∧
    ∃ pwd, secure_password r len uu ul ud us = Except.ok pwd ∧
      (pwd.length : Int) = len ∧
      (ul = true → ∃ c ∈ pwd, c ∈ ascii_lowercase) ∧
      (uu = true → ∃ c ∈ pwd, c ∈ ascii_uppercase) ∧
      (ud = true → ∃ c ∈ pwd, c ∈ digits) ∧
      (us = true → ∃ c ∈ pwd, c ∈ symbolChars) := by
  constructor
  · refine ⟨if ul then [secureChoice (r 0) ascii_lowercase] else [],
      if uu then [secureChoice (r (boolNat ul)) ascii_uppercase] else [],
      if ud then [secureChoice (r (boolNat ul + boolNat uu)) digits] else [],
      if us then [secureChoice (r (boolNat ul + boolNat uu + boolNat ud)) symbolChars]
        else [], ?_, ?_, ?_, ?_, ?_⟩
    · rw [seedChars]
    · cases ul with
      | false => exact rfl
      | true => exact ⟨_, secureChoice_mem _ _ (by decide), rfl⟩
    · cases uu with
      | false => exact rfl
      | true => exact ⟨_, secureChoice_mem _ _ (by decide), rfl⟩
    · cases ud with
      | false => exact rfl
      | true => exact ⟨_, secureChoice_mem _ _ (by decide), rfl⟩
    · cases us with
      | false => exact rfl
      | true => exact ⟨_, secureChoice_mem _ _ (by decide), rfl⟩
  · obtain ⟨pwd, hok, hlen, _, hl, hu, hd, hs⟩ :=
      secure_password_cover r len uu ul ud us hcls hn
    exact ⟨pwd, hok, hlen, hl, hu, hd, hs⟩

/-- Witness for C2 at a concrete input: `length = 4` with all four classes
enabled. -/
theorem C2_coverage_seed_order_witness :
    (true || true || true || true) = true ∧
    (numEnabled true true true true : Int) ≤ 4 ∧
    ((∃ la ua da sa : List Char,
      seedChars constRand true true true true = la ++ ua ++ da ++ sa ∧
      (if true then ∃ x ∈ ascii_lowercase, la = [x] else la = []) ∧
      (if true then ∃ x ∈ ascii_uppercase, ua = [x] else ua = []) ∧
      (if true then ∃ x ∈ digits, da = [x] else da = []) ∧
      (if true then ∃ x ∈ symbolChars, sa = [x] else sa = [])) ∧
    ∃ pwd, secure_password constRand 4 true true true true = Except.ok pwd ∧
      (pwd.length : Int) = 4 ∧
      (true = true → ∃ c ∈ pwd, c ∈ ascii_lowercase) ∧
      (true = true → ∃ c ∈ pwd, c ∈ ascii_uppercase) ∧
      (true = true → ∃ c ∈ pwd, c ∈ digits) ∧
      (true = true → ∃ c ∈ pwd, c ∈ symbolChars)) :=
  ⟨by decide, by decide,
    C2_coverage_seed_order constRand 4 true true true true (by decide) (by decide)⟩

/-- Claim C3: with zero character classes enabled, `secure_password` raises
the empty-pool `ValueError` instead of returning a string, and the Generate
transition leaves the Settings Store (in particular the user's entry and its
`last_password`) completely unchanged. -/
theorem C3_no_class_error_store_unchanged (r : Nat → Nat)
    (store : List (Nat × UserSettings)) (uid : Nat) (s : UserSettings)
    (hs : lookupUser store uid = some s)
    (hu : s.upper = false) (hl : s.lower = false) (hd : s.digits = false)
    (hsy : s.symbols = false) :
    secure_password r s.length s.upper s.lower s.digits s.symbols =
      Except.error "Character pool is empty. Enable at least one character set." ∧
    step r store uid (Event.button genPayload) = store := by
  have herr : secure_password r s.length s.upper s.lower s.digits s.symbols =
      Except.error "Character pool is empty. Enable at least one character set." := by
    rw [hu, hl, hd, hsy]
    exact secure_password_err r s.length
  refine ⟨herr, ?_⟩
  rw [step_button_found hs]
  have happ : applyButton r s genPayload = doGenerate r s := rfl
  have hgen : doGenerate r s = s := by
    rw [doGenerate, herr]
  rw [happ, hgen]
  exact setUser_same hs

/-- A user who has switched all four classes off. -/
def noClassSettings : UserSettings :=
  { length := 12, upper := false, lower := false, digits := false, symbols := false,
    last_password := some ['x'] }

/-- Witness for C3 at a concrete store containing a user with all classes
disabled. -/
theorem C3_no_class_error_store_unchanged_witness :
    lookupUser [(1, noClassSettings)] 1 = some noClassSettings ∧
    (secure_password constRand noClassSettings.length noClassSettings.upper
        noClassSettings.lower noClassSettings.digits noClassSettings.symbols =
      Except.error "Character pool is empty. Enable at least one character set." ∧
    step constRand [(1, noClassSettings)] 1 (Event.button genPayload) =
      [(1, noClassSettings)]) :=
  ⟨by decide,
    C3_no_class_error_store_unchanged constRand [(1, noClassSettings)] 1
      noClassSettings (by decide) rfl rfl rfl rfl⟩

/-- Counterexample to claim C4 as stated: the crafted button payload
`len:0` is handled by the length-selection branch and stores `length = 0`,
which is not a positive integer, in the Settings Store. -/
theorem C4_length_invariant_counterexample :
    ¬ lengthInv (runEvents []
      [⟨constRand, 1, Event.button ['l', 'e', 'n', ':', '0']⟩]) := by
  decide

/-- Claim C4 (amended): in every state of the Settings Store reachable from
a fresh store by handled events whose length-selection payloads parse to a
positive value — which includes every payload the offered keyboard can emit
(`len:8`, `len:12`, `len:16`, `len:24`) — every user's `length` field is a
positive integer.  Length payloads whose parse fails (where the ASCII model
of `int()` may disagree with CPython) are outside the hypothesis. -/
theorem C4_length_invariant_amended (evs : List TimedEvent)
    (hgood : ∀ e ∈ evs, goodEvent e.ev = true) :
    lengthInv (runEvents [] evs) :=
  runEvents_lengthInv evs [] (by intro p hp; cases hp) hgood

/-- Witness for amended C4: a concrete keyboard-driven session (start,
length selection, toggle, generate, clear, unknown payload). -/
theorem C4_length_invariant_amended_witness :
    (∀ e ∈ demoEvents, goodEvent e.ev = true) ∧
      lengthInv (runEvents [] demoEvents) :=
  ⟨by decide, C4_length_invariant_amended demoEvents (by decide)⟩

/-- Double application of a recognised toggle key restores the settings. -/
theorem toggleKey_involutive (s : UserSettings) (key : List Char)
    (hkey : key = ['u', 'p', 'p', 'e', 'r'] ∨ key = ['l', 'o', 'w', 'e', 'r'] ∨
      key = ['d', 'i', 'g', 'i', 't', 's'] ∨ key = ['s', 'y', 'm', 'b', 'o', 'l', 's']) :
    toggleKey (toggleKey s key) key = s := by
  obtain ⟨len, u, l, d, sy, lp⟩ := s
  rcases hkey with h | h | h | h <;> subst h
  · show UserSettings.mk len (!!u) l d sy lp = UserSettings.mk len u l d sy lp
    rw [Bool.not_not]
  · show UserSettings.mk len u (!!l) d sy lp = UserSettings.mk len u l d sy lp
    rw [Bool.not_not]
  · show UserSettings.mk len u l (!!d) sy lp = UserSettings.mk len u l d sy lp
    rw [Bool.not_not]
  · show UserSettings.mk len u l d (!!sy) lp = UserSettings.mk len u l d sy lp
    rw [Bool.not_not]

/-- Claim C5: the Regenerate transition behaves identically to the Generate
transition on the Settings Store — both run `secure_password` on the current
settings and store the result as `last_password`; and a fresh user with no
prior password who triggers Regenerate gets a 12-character password produced
and stored rather than a failure. -/
theorem C5_regenerate_equals_generate :
    (∀ (r : Nat → Nat) (store : List (Nat × UserSettings)) (uid : Nat),
      step r store uid (Event.button genPayload) =
        step r store uid (Event.button regenPayload)) ∧
    (∀ r : Nat → Nat, ∃ pwd : List Char,
      lookupUser (step r [] 7 (Event.button regenPayload)) 7 =
        some { DEFAULTS with last_password := some pwd } ∧ pwd.length = 12) := by
  constructor
  · intro r store uid
    rfl
  · intro r
    obtain ⟨pwd, hok, hlen, _⟩ :=
      secure_password_ok r 12 true true true false (by decide) (by decide)
    refine ⟨pwd, ?_, by omega⟩
    rw [step_button_fresh (rfl : lookupUser [] 7 = none)]
    have happ : applyButton r DEFAULTS regenPayload = doGenerate r DEFAULTS := rfl
    have hgen : doGenerate r DEFAULTS = { DEFAULTS with last_password := some pwd } := by
      rw [doGenerate]
      show (match secure_password r 12 true true true false with
        | Except.ok p => { DEFAULTS with last_password := some p }
        | Except.error _ => DEFAULTS) = { DEFAULTS with last_password := some pwd }
      rw [hok]
    rw [happ, hgen, setUser_setUser]
    exact lookup_setUser_self _ _ _

/-- Claim C6: applying the same class toggle twice in succession returns the
flag to its original value and leaves the user's whole settings state — and
the whole Settings Store — equal to the original. -/
theorem C6_toggle_involutive (r r' : Nat → Nat) (store : List (Nat × UserSettings))
    (uid : Nat) (s : UserSettings) (key : List Char)
    (hs : lookupUser store uid = some s)
    (hkey : key = ['u', 'p', 'p', 'e', 'r'] ∨ key = ['l', 'o', 'w', 'e', 'r'] ∨
      key = ['d', 'i', 'g', 'i', 't', 's'] ∨ key = ['s', 'y', 'm', 'b', 'o', 'l', 's']) :
    step r' (step r store uid (Event.button (togglePayload key))) uid
      (Event.button (togglePayload key)) = store := by
  have happ : ∀ (rr : Nat → Nat) (t : UserSettings),
      applyButton rr t (togglePayload key) = toggleKey t key := fun _ _ => rfl
  rw [step_button_found hs, happ r s]
  have h1 : lookupUser (setUser store uid (toggleKey s key)) uid =
      some (toggleKey s key) := lookup_setUser_self _ _ _
  rw [step_button_found h1, happ r' _, setUser_setUser,
    toggleKey_involutive s key hkey]
  exact setUser_same hs

/-- Witness for C6: toggling `upper` twice for a stored default user. -/
theorem C6_toggle_involutive_witness :
    lookupUser [(4, DEFAULTS)] 4 = some DEFAULTS ∧
    step constRand (step mixRand [(4, DEFAULTS)] 4
        (Event.button (togglePayload ['u', 'p', 'p', 'e', 'r']))) 4
      (Event.button (togglePayload ['u', 'p', 'p', 'e', 'r'])) = [(4, DEFAULTS)] :=
  ⟨by decide,
    C6_toggle_involutive mixRand constRand [(4, DEFAULTS)] 4 DEFAULTS
      ['u', 'p', 'p', 'e', 'r'] (by decide) (Or.inl rfl)⟩

/-- Claim C7: the Clear transition sets `last_password` to absent without
invoking the generator (the resulting store does not depend on the random
source), and leaves every other field of the user's settings unchanged. -/
theorem C7_clear_frame (r : Nat → Nat) (store : List (Nat × UserSettings))
    (uid : Nat) (s : UserSettings) (hs : lookupUser store uid = some s) :
    step r store uid (Event.button clearPayload) =
      setUser store uid { s with last_password := none } := by
  rw [step_button_found hs]
  rfl

/-- A stored user with non-default settings and a remembered password. -/
def demoUser : UserSettings :=
  { length := 16, upper := false, lower := true, digits := true, symbols := true,
    last_password := some ['p', 'w'] }

/-- Witness for C7: clearing a user who holds a stored password keeps the
other fields. -/
theorem C7_clear_frame_witness :
    lookupUser [(9, demoUser)] 9 = some demoUser ∧
    step constRand [(9, demoUser)] 9 (Event.button clearPayload) =
      setUser [(9, demoUser)] 9 { demoUser with last_password := none } :=
  ⟨by decide, C7_clear_frame constRand [(9, demoUser)] 9 demoUser (by decide)⟩

/-- Claim C8: for the default settings (`length = 12`, upper, lower, digits
enabled, symbols disabled) every generated password has length 12, contains
at least one uppercase letter, one lowercase letter and one digit, and every
character belongs to the enabled classes' pool — in particular no symbol
characters occur. -/
theorem C8_default_settings_scenario (r : Nat → Nat) :
    ∃ pwd, secure_password r DEFAULTS.length DEFAULTS.upper DEFAULTS.lower
        DEFAULTS.digits DEFAULTS.symbols = Except.ok pwd ∧
      pwd.length = 12 ∧
      (∃ c ∈ pwd, c ∈ ascii_uppercase) ∧
      (∃ c ∈ pwd, c ∈ ascii_lowercase) ∧
      (∃ c ∈ pwd, c ∈ digits) ∧
      (∀ c ∈ pwd, c ∈ buildPool true true true false ∧ c ∉ symbolChars) := by
  obtain ⟨pwd, hok, hlen, hpool, hl, hu, hd, _⟩ :=
    secure_password_cover r 12 true true true false (by decide) (by decide)
  have hdisj : ∀ x ∈ buildPool true true true false, x ∉ symbolChars := by decide
  refine ⟨pwd, hok, by omega, hu rfl, hl rfl, hd rfl, ?_⟩
  intro c hc
  exact ⟨hpool c hc, hdisj c (hpool c hc)⟩

/-- Claim C9: rendering the settings summary (status text and keyboard) is a
deterministic function of the five settings values alone — two settings
states agreeing on `length` and the four class flags render byte-identically,
whatever their stored passwords. -/
theorem C9_render_deterministic (s t : UserSettings)
    (h1 : s.length = t.length) (h2 : s.upper = t.upper) (h3 : s.lower = t.lower)
    (h4 : s.digits = t.digits) (h5 : s.symbols = t.symbols) :
    build_status_text s = build_status_text t ∧
      build_main_keyboard s = build_main_keyboard t := by
  constructor
  · rw [build_status_text, build_status_text, h1, h2, h3, h4, h5]
  · have hlb : lengthButton s = lengthButton t := by
      funext l
      rw [lengthButton, lengthButton, h1]
    rw [build_main_keyboard, build_main_keyboard, hlb, h2, h3, h4, h5]

/-- Witness for C9: the default settings rendered against the same settings
carrying a stored password. -/
theorem C9_render_deterministic_witness :
    build_status_text DEFAULTS =
      build_status_text { DEFAULTS with last_password := some ['z'] } ∧
    build_main_keyboard DEFAULTS =
      build_main_keyboard { DEFAULTS with last_password := some ['z'] } :=
  C9_render_deterministic _ _ rfl rfl rfl rfl rfl

/-- Claim C10: per-user isolation of the Settings Store — a transition for
one user never changes another user's stored settings, and a fresh user's
entry is created from the defaults template (`length = 12`, upper, lower,
digits enabled, symbols disabled, no last password), unaffected by earlier
mutations of other users. -/
theorem C10_store_isolation :
    (∀ (r : Nat → Nat) (store : List (Nat × UserSettings)) (uid uid' : Nat)
      (ev : Event), uid ≠ uid' →
        lookupUser (step r store uid ev) uid' = lookupUser store uid') ∧
    (∀ (r : Nat → Nat) (store : List (Nat × UserSettings)) (uid : Nat),
      lookupUser store uid = none →
        lookupUser (step r store uid Event.start) uid = some DEFAULTS) := by
  constructor
  · intro r store uid uid' ev hne
    cases ev with
    | start =>
      cases hl : lookupUser store uid with
      | some s => rw [step_start_found hl]
      | none =>
        rw [step_start_fresh hl]
        exact lookup_setUser_ne _ _ _ _ hne
    | button payload =>
      cases hl : lookupUser store uid with
      | some s =>
        rw [step_button_found hl]
        exact lookup_setUser_ne _ _ _ _ hne
      | none =>
        rw [step_button_fresh hl]
        exact (lookup_setUser_ne _ _ _ _ hne).trans (lookup_setUser_ne _ _ _ _ hne)
  · intro r store uid h
    rw [step_start_fresh h]
    exact lookup_setUser_self _ _ _

/-- Witness for C10: user 2 generating does not touch user 1's entry, and a
fresh user 5 is created with the defaults. -/
theorem C10_store_isolation_witness :
    lookupUser (step constRand [(1, demoUser)] 2 (Event.button genPayload)) 1 =
      lookupUser [(1, demoUser)] 1 ∧
    lookupUser (step constRand [(1, demoUser)] 5 Event.start) 5 = some DEFAULTS :=
  ⟨C10_store_isolation.1 constRand [(1, demoUser)] 2 1 (Event.button genPayload)
      (by decide),
   C10_store_isolation.2 constRand [(1, demoUser)] 5 (by decide)⟩

end PwBot
